import Mathlib

/-
Verification development for the plot-configuration layer of
`plotting_misc/plot_classes.py` (Pythium).

Modelling conventions:
* Python floats are modelled as exact rationals (`ℚ`) where the code only
  adds, divides and compares, and as exact reals extended with IEEE special
  values (`PyF`: finite real, NaN, +inf, -inf) where the code takes square
  roots and can divide by zero (the Poisson error-band computation of
  `Hist1D.histbins_errs`).  Rounding of binary floats is abstracted away:
  every claim under check is about exact identities, conventions at zero,
  or digit/precision selection on exactly representable inputs.
* Python dicts are modelled as insertion-ordered association lists with
  overwrite-on-existing-key semantics (`dictInsert`).
* Uncaught Python exceptions are modelled with `Except PyErr`; a fallible
  loop that logs and `break`s is modelled by returning the partial state
  together with a completion flag.
-/

namespace Pythium

/-- Exceptions the modelled code paths can raise uncaught. -/
inductive PyErr
| stopIteration
| attributeError
deriving DecidableEq

/-- A loaded `boost_histogram.Histogram` as the code introspects it:
bin edges and bin values of axis 0, and the optional `name`/`label`
metadata of axis 0 (`sample.axes[0].name`, `sample.axes[0].label`). -/
structure Histo where
  edges : List ℚ
  vals : List ℚ
  hname : Option String
  hlabel : Option String
deriving DecidableEq

/-- What a pickle file for one sample name can hold: a histogram-shaped
object, or some other object (`isinstance(obj, bh.Histogram)` false). -/
inductive FileContent
| hist (h : Histo)
| other
deriving DecidableEq

/-- The `data` constructor argument after `check_input`'s normalisation:
either the literal marker `'all'` or a list of sample names. -/
inductive DataSpec
| all
| names (l : List String)

/-- The condition `samplename in self.data or self.data == 'all'`
(plot_classes.py line 352 and 386). -/
def DataSpec.isData : DataSpec → String → Bool
| .all, _ => true
| .names l, s => l.contains s

/-- Python dict assignment `d[k] = v`: overwrite the existing entry for `k`
in place, else append at the end (dicts preserve insertion order). -/
def dictInsert {α : Type} (d : List (String × α)) (k : String) (v : α) :
    List (String × α) :=
  if d.any (fun p => p.1 = k) then
    d.map (fun p => if p.1 = k then (k, v) else p)
  else d ++ [(k, v)]

/-- Keys of a modelled dict, in insertion order. -/
def keysOf {α : Type} (d : List (String × α)) : List String :=
  d.map Prod.fst

/-- The mutable sample store filled by `Hist1D.check_input`
(plot_classes.py lines 285-289 and 338-361). -/
structure Store where
  samples_dict : List (String × Histo)
  histos_dict : List (String × Histo)
  histos_list : List Histo
  data_dict : List (String × Histo)
  plot_types : List (String × String)
deriving DecidableEq

/-- The store before any sample is loaded. -/
def emptyStore : Store := ⟨[], [], [], [], []⟩

/-- The body of `check_input`'s loading loop (plot_classes.py lines 338-361):
for each name open `<dir>/<name>.pkl` (an unreadable/missing file raises,
which the `except` clause turns into a logged error plus `break`); a loaded
object that is not a `bh.Histogram` is a logged error plus `break`; a
histogram is stored in `samples_dict` and routed to `data_dict` or
`histos_dict` by `DataSpec.isData`.  Returns the store after the loop and
`true` iff the whole batch was loaded without the abort. -/
def loadSamples (env : String → Option FileContent) (ds : DataSpec) :
    List String → Store → Store × Bool
| [], st => (st, true)
| s :: rest, st =>
  match env s with
  | none => (st, false)
  | some FileContent.other => (st, false)
  | some (FileContent.hist h) =>
    let st1 : Store := { st with samples_dict := dictInsert st.samples_dict s h }
    let st2 : Store :=
      if ds.isData s then
        { st1 with data_dict := dictInsert st1.data_dict s h,
                   plot_types := dictInsert st1.plot_types s ("data") }
      else
        { st1 with histos_dict := dictInsert st1.histos_dict s h,
                   histos_list := st1.histos_list ++ [h],
                   plot_types := dictInsert st1.plot_types s ("histo") }
    loadSamples env ds rest st2

/-- `Hist1D.check_input` (plot_classes.py lines 319-365): an empty sample
list only logs "Enter a non-empty list of samples to plot." and leaves the
store empty (flag `false`); otherwise the loading loop runs.  The checks on
`self.data` names only log and never change the store, so they are not
modelled further. -/
def check_input (env : String → Option FileContent) (samples : List String)
    (ds : DataSpec) : Store × Bool :=
  if samples = [] then (emptyStore, false)
  else loadSamples env ds samples emptyStore

/-- The derived per-store data `Hist1D.store_data` computes
(plot_classes.py lines 368-389). -/
structure StoreData where
  datasize : Nat
  edges : List ℚ
  values : List (List ℚ)
  names : List String
  labels : List String
  histolabels : List (Option String)
  scatterlabels : List (Option String)
deriving DecidableEq

/-- `Hist1D.store_data` (plot_classes.py lines 368-389): take the first
sample of `histos_dict`, else of `data_dict`; with both dicts empty,
`next(iter(self.data_dict))` raises an uncaught `StopIteration`.  The label
loop appends `name if name else ''` / `label if label else ''` to
`names`/`labels` and the raw label to `scatterlabels` or `histolabels`. -/
def store_data (st : Store) (ds : DataSpec) : Except PyErr StoreData :=
  match st.histos_dict, st.data_dict with
  | [], [] => Except.error PyErr.stopIteration
  | (_, h) :: _, _ =>
    Except.ok
      { datasize := h.vals.length
        edges := h.edges
        values := st.samples_dict.map (fun p => p.2.vals)
        names := st.samples_dict.map (fun p => p.2.hname.getD "")
        labels := st.samples_dict.map (fun p => p.2.hlabel.getD "")
        histolabels := (st.samples_dict.filter
          (fun p => ¬ ds.isData p.1)).map (fun p => p.2.hlabel)
        scatterlabels := (st.samples_dict.filter
          (fun p => ds.isData p.1)).map (fun p => p.2.hlabel) }
  | [], (_, h) :: _ =>
    Except.ok
      { datasize := h.vals.length
        edges := h.edges
        values := st.samples_dict.map (fun p => p.2.vals)
        names := st.samples_dict.map (fun p => p.2.hname.getD "")
        labels := st.samples_dict.map (fun p => p.2.hlabel.getD "")
        histolabels := (st.samples_dict.filter
          (fun p => ¬ ds.isData p.1)).map (fun p => p.2.hlabel)
        scatterlabels := (st.samples_dict.filter
          (fun p => ds.isData p.1)).map (fun p => p.2.hlabel) }

/-- The store-building part of `Hist1D.__init__` (plot_classes.py lines
296-310): `check_input` fills the dicts, then `store_data` runs
unconditionally.  (`assign_colors` between the two only fills
`colors_dict` and cannot change or fail on the dicts modelled here.) -/
def construct (env : String → Option FileContent) (samples : List String)
    (ds : DataSpec) : Except PyErr (Store × StoreData) :=
  let st := (check_input env samples ds).1
  (store_data st ds).map (fun d => (st, d))

/-- The inner loop of `RatioPlot.ratiovalues_calculator` (plot_classes.py
lines 846-850): `for n, m in zip(sample.values(), self.dvals)`, appending
`n/m` when `m != 0` and `0` when `m == 0`. -/
def ratiovalues (nvals dvals : List ℚ) : List ℚ :=
  (nvals.zip dvals).map (fun p => if p.2 ≠ 0 then p.1 / p.2 else 0)

/-- `RatioPlot.ratiovalues_calculator` over all numerator samples
(plot_classes.py lines 840-850). -/
def ratiovalues_calculator (numerators : List (String × Histo))
    (dvals : List ℚ) : List (String × List ℚ) :=
  numerators.map (fun p => (p.1, ratiovalues p.2.vals dvals))

/-- `np.sum(valueslist, axis=0)` for a list of equal-length rows:
elementwise sum. -/
def np_sum_axis0 : List (List ℚ) → List ℚ
| [] => []
| v :: rest => rest.foldl (fun acc w => List.zipWith (· + ·) acc w) v

/-- `Hist1D.get_stackvalues` (plot_classes.py lines 475-487): a singleton
list returns its element's values unchanged (`len(listofhist) == 1`),
otherwise `np.sum` of all value rows along axis 0. -/
def get_stackvalues (listofhist : List Histo) : List ℚ :=
  match listofhist with
  | [h] => h.vals
  | l => np_sum_axis0 (l.map (fun h => h.vals))

/-- The four matplotlib line styles `EmptyPlot.gridstring_converter` accepts
(plot_classes.py line 187).  A Python string is modelled as its list of
characters. -/
def linestyles : List (List Char) := [['-'], ['-', '-'], ['-', '.'], [':']]

/-- The characters of the axis marker `'both'`. -/
def bothChars : List Char := ['b', 'o', 't', 'h']

/-- The three axis markers the grid string may start with. -/
def gridAxes : List (List Char) := [['x'], ['y'], bothChars]

/-- What a call to `gridstring_converter` does: assign both attributes, only
log the invalid-grid-string error, or raise (on the empty string,
`string[0]` raises `IndexError` before any branch is taken). -/
inductive GridOutcome
| assigned (axis : List Char) (line : List Char)
| reported
| crashed
deriving DecidableEq

/-- `EmptyPlot.gridstring_converter` (plot_classes.py lines 179-196):
`string[0]` of the empty string raises; a first character `x`/`y` with the
rest a line style sets `gridaxis = string[0]`, `gridline = string[1:]`;
else `string[:4] == 'both'` with `string[4:]` a line style sets
`gridaxis = string[:4]`, `gridline = string[4:]`; else only an error is
logged and neither attribute is assigned. -/
def gridstring_converter : List Char → GridOutcome
| [] => GridOutcome.crashed
| c :: rest =>
  if (c = 'x' ∨ c = 'y') ∧ rest ∈ linestyles then
    GridOutcome.assigned [c] rest
  else if (c :: rest).take 4 = bothChars ∧ (c :: rest).drop 4 ∈ linestyles then
    GridOutcome.assigned ((c :: rest).take 4) ((c :: rest).drop 4)
  else GridOutcome.reported

/-- A grid string is well formed when it is an axis marker immediately
followed by a line style. -/
def gridSpecValid (s : List Char) : Prop :=
  ∃ a ∈ gridAxes, ∃ l ∈ linestyles, s = a ++ l

instance (s : List Char) : Decidable (gridSpecValid s) := by
  unfold gridSpecValid; infer_instance

/-- The grid-related attributes of a plot object.  `gridaxis`/`gridline`
are `none` while the Python attribute does not exist on the object (they
are not initialised in `__init__`; only `gridstring_converter`'s success
branches ever assign them). -/
structure GridState where
  need_grid : Bool
  gridaxis : Option (List Char)
  gridline : Option (List Char)
deriving DecidableEq

/-- The grid attributes right after `Hist1D.__init__` (plot_classes.py line
300 sets `need_grid = False`; `gridaxis`/`gridline` are never created). -/
def initGridState : GridState := ⟨false, none, none⟩

/-- Effect of one `gridstring_converter` call on the attributes: the success
branches assign both, the logging branch assigns neither. -/
def applyConverter (st : GridState) (s : List Char) : GridState :=
  match gridstring_converter s with
  | GridOutcome.assigned a l => { st with gridaxis := some a, gridline := some l }
  | _ => st

/-- The grid section of `Hist1D.plot_options` (plot_classes.py lines
726-729): a falsy (empty) `gridstring` is skipped entirely; a non-empty one
is passed to the converter and then `need_grid` is set `True`
unconditionally, whether or not the converter succeeded. -/
def plot_options_grid (st : GridState) (gridstring : List Char) : GridState :=
  if gridstring = [] then st
  else { applyConverter st gridstring with need_grid := true }

/-- The grid-drawing step of `Hist1D.hist_plot` (plot_classes.py lines
641-642): when `need_grid` it reads `self.gridaxis` and `self.gridline`;
reading an attribute that was never assigned raises `AttributeError`. -/
def hist_plot_grid (st : GridState) : Except PyErr Unit :=
  if st.need_grid then
    match st.gridaxis, st.gridline with
    | some _, some _ => Except.ok ()
    | _, _ => Except.error PyErr.attributeError
  else Except.ok ()

/-- The identical grid-drawing step of `RatioPlot.bot_plot` (plot_classes.py
lines 990-991). -/
def bot_plot_grid (st : GridState) : Except PyErr Unit :=
  hist_plot_grid st

/-- Round half to even, the rounding Python's fixed-point formatting
`f'{x:.pf}'` applies to an exactly represented value. -/
def rhe (q : ℚ) : ℤ :=
  if q - ⌊q⌋ < 1/2 then ⌊q⌋
  else if 1/2 < q - ⌊q⌋ then ⌊q⌋ + 1
  else if ⌊q⌋ % 2 = 0 then ⌊q⌋ else ⌊q⌋ + 1

/-- Decimal rendering of `n` left-padded with zeros to width `p`. -/
def natPad (p : Nat) (n : Nat) : String :=
  String.mk (List.replicate (p - (toString n).length) '0') ++ toString n

/-- Python's `f'{q:.pf}'` on an exactly represented rational: sign from the
value, then the rounded magnitude with exactly `p` decimal digits. -/
def formatFixed (p : Nat) (q : ℚ) : String :=
  if p = 0 then
    (if q < 0 then "-" else "") ++ toString (rhe (|q| * (10 : ℚ) ^ p)).toNat
  else
    (if q < 0 then "-" else "") ++
      toString ((rhe (|q| * (10 : ℚ) ^ p)).toNat / 10 ^ p) ++ "." ++
      natPad p ((rhe (|q| * (10 : ℚ) ^ p)).toNat % 10 ^ p)

/-- The two decimal digits of `f'{q:.2f}'` as a number in `0..99`
(`num.split('.')[1]` of the formatted string). -/
def fracDigits2 (q : ℚ) : Nat := (rhe (|q| * 100)).toNat % 100

/-- First decimal digit of `q` formatted to two decimals
(`decimals[0]` in `RatioPlot.custom_yaxis`). -/
def digit1 (q : ℚ) : Nat := fracDigits2 q / 10

/-- Second decimal digit of `q` formatted to two decimals
(`decimals[1]` in `RatioPlot.custom_yaxis`). -/
def digit2 (q : ℚ) : Nat := fracDigits2 q % 10

/-- The scan of `custom_yaxis` over `temprange[1:-1]` (plot_classes.py
lines 919-928): a non-zero second decimal digit sets `need2` and breaks
before that element's first digit is looked at; otherwise a non-zero first
decimal digit sets `need1` and the scan continues.  The digits the code
reads off the formatted string are `digit1`/`digit2` of the tick value.
Returns `(need1, need2)`. -/
def needsScan : List ℚ → Bool → Bool × Bool
| [], need1 => (need1, false)
| x :: rest, need1 =>
  if digit2 x != 0 then (need1, true)
  else needsScan rest (need1 || (digit1 x != 0))

/-- The two assignments `self.ybotlabels[0] = ''` and
`self.ybotlabels[-1] = ''` (plot_classes.py lines 937-938). -/
def blankEnds (l : List String) : List String :=
  (l.set 0 "").set (l.length - 1) ""

/-- `np.arange(a, b, s)`: the values `a + k*s` for `k < ⌈(b - a)/s⌉`. -/
def np_arange (a b s : ℚ) : List ℚ :=
  (List.range (((b - a) / s).ceil.toNat)).map (fun k => a + (k : ℚ) * s)

/-- `self.ybotrange = np.arange(ylims[0], ylims[-1]+step, step)`
(plot_classes.py line 910). -/
def ybotrange (ylo yhi step : ℚ) : List ℚ :=
  np_arange ylo (yhi + step) step

/-- The label-building part of `RatioPlot.custom_yaxis` (plot_classes.py
lines 915-938), as a function of the generated tick list: choose two, one
or zero decimal places from the scan of the interior ticks, format every
tick at that precision, and blank the first and last labels unless `edges`
was requested. -/
def ylabeler (ticks : List ℚ) (edges : Bool) : List String :=
  let r := needsScan ((ticks.drop 1).dropLast) false
  let labels :=
    if r.2 then ticks.map (formatFixed 2)
    else if r.1 then ticks.map (formatFixed 1)
    else ticks.map (formatFixed 0)
  if edges then labels else blankEnds labels

/-- `RatioPlot.custom_yaxis` for limits `[ylo, yhi]` and a given step. -/
def custom_yaxis (ylo yhi step : ℚ) (edges : Bool) : List String :=
  ylabeler (ybotrange ylo yhi step) edges

/-- Modelled from the spec's words (§4.4), for comparison with the code's
`ylabeler`: "if any non-last/non-first tick has a non-zero value in the 2nd
decimal place, keep 2-decimal formatting for all; else if any has a
non-zero 1st decimal, use 1-decimal formatting for all; else use integer
formatting for all". -/
def specPrecision (ticks : List ℚ) : Nat :=
  let mids := (ticks.drop 1).dropLast
  if mids.any (fun x => digit2 x != 0) then 2
  else if mids.any (fun x => digit1 x != 0) then 1
  else 0

/-- Modelled from the spec's words (§4.4): every tick formatted at the one
chosen precision, first/last labels blanked unless edge labels are
requested. -/
def specLabels (ticks : List ℚ) (edges : Bool) : List String :=
  let ls := ticks.map (formatFixed (specPrecision ticks))
  if edges then ls else blankEnds ls

/-- A Python/numpy float, with exact finite values: a finite real, NaN, or
a signed infinity.  (Signed zero and rounding are not modelled; no claim
under check depends on them.) -/
inductive PyF
| fin (x : ℝ)
| nan
| inf
| ninf

/-- IEEE addition on `PyF`. -/
noncomputable def pyAdd : PyF → PyF → PyF
| PyF.nan, _ => PyF.nan
| _, PyF.nan => PyF.nan
| PyF.fin a, PyF.fin b => PyF.fin (a + b)
| PyF.inf, PyF.ninf => PyF.nan
| PyF.ninf, PyF.inf => PyF.nan
| PyF.inf, _ => PyF.inf
| _, PyF.inf => PyF.inf
| PyF.ninf, _ => PyF.ninf
| _, PyF.ninf => PyF.ninf

/-- IEEE subtraction on `PyF`. -/
noncomputable def pySub : PyF → PyF → PyF
| PyF.nan, _ => PyF.nan
| _, PyF.nan => PyF.nan
| PyF.fin a, PyF.fin b => PyF.fin (a - b)
| PyF.inf, PyF.inf => PyF.nan
| PyF.ninf, PyF.ninf => PyF.nan
| PyF.inf, _ => PyF.inf
| _, PyF.inf => PyF.ninf
| PyF.ninf, _ => PyF.ninf
| _, PyF.ninf => PyF.inf

/-- IEEE multiplication on `PyF`. -/
noncomputable def pyMul : PyF → PyF → PyF
| PyF.nan, _ => PyF.nan
| _, PyF.nan => PyF.nan
| PyF.fin a, PyF.fin b => PyF.fin (a * b)
| PyF.inf, PyF.fin b =>
    if b = 0 then PyF.nan else if 0 < b then PyF.inf else PyF.ninf
| PyF.fin a, PyF.inf =>
    if a = 0 then PyF.nan else if 0 < a then PyF.inf else PyF.ninf
| PyF.ninf, PyF.fin b =>
    if b = 0 then PyF.nan else if 0 < b then PyF.ninf else PyF.inf
| PyF.fin a, PyF.ninf =>
    if a = 0 then PyF.nan else if 0 < a then PyF.ninf else PyF.inf
| PyF.inf, PyF.inf => PyF.inf
| PyF.inf, PyF.ninf => PyF.ninf
| PyF.ninf, PyF.inf => PyF.ninf
| PyF.ninf, PyF.ninf => PyF.inf

/-- IEEE division on `PyF` (numpy semantics: `0/0` is NaN, `a/0` for
`a ≠ 0` is a signed infinity — a warning is printed, nothing is raised). -/
noncomputable def pyDiv : PyF → PyF → PyF
| PyF.nan, _ => PyF.nan
| _, PyF.nan => PyF.nan
| PyF.fin a, PyF.fin b =>
    if b = 0 then
      if a = 0 then PyF.nan else if 0 < a then PyF.inf else PyF.ninf
    else PyF.fin (a / b)
| PyF.fin _, PyF.inf => PyF.fin 0
| PyF.fin _, PyF.ninf => PyF.fin 0
| PyF.inf, PyF.fin b => if 0 ≤ b then PyF.inf else PyF.ninf
| PyF.ninf, PyF.fin b => if 0 ≤ b then PyF.ninf else PyF.inf
| _, PyF.inf => PyF.nan
| _, PyF.ninf => PyF.nan

/-- IEEE square root on `PyF` (`np.sqrt`): NaN for negative finite values,
exact real square root otherwise. -/
noncomputable def pySqrt : PyF → PyF
| PyF.fin a => if a < 0 then PyF.nan else PyF.fin (Real.sqrt a)
| PyF.nan => PyF.nan
| PyF.inf => PyF.inf
| PyF.ninf => PyF.nan

/-- The `heights` array of `Hist1D.histbins_errs` (plot_classes.py lines
504-511 and 528-537): `poisson = np.sqrt(values)`; in ratio mode
`2 * (((poisson + values) / values) - 1)`, otherwise `2 * poisson`. -/
noncomputable def bandHeights (values : List PyF) (ratioMode : Bool) : List PyF :=
  let poisson := values.map pySqrt
  if ratioMode then
    ((List.zipWith pyDiv (List.zipWith pyAdd poisson values) values).map
      (fun t => pySub t (PyF.fin 1))).map (fun t => pyMul (PyF.fin 2) t)
  else poisson.map (fun t => pyMul (PyF.fin 2) t)

/-- The `_bottom` array of `Hist1D.histbins_errs`: in ratio mode
`1 - (((poisson + values) / values) - 1)`, otherwise `values - poisson`. -/
noncomputable def bandBottom (values : List PyF) (ratioMode : Bool) : List PyF :=
  let poisson := values.map pySqrt
  if ratioMode then
    ((List.zipWith pyDiv (List.zipWith pyAdd poisson values) values).map
      (fun t => pySub t (PyF.fin 1))).map (fun t => pySub (PyF.fin 1) t)
  else List.zipWith pySub values poisson

/-- Lower edge of the drawn error band: `ax.bar(..., bottom=_bottom)`. -/
noncomputable def bandLower (values : List PyF) (ratioMode : Bool) : List PyF :=
  bandBottom values ratioMode

/-- Upper edge of the drawn error band: `bottom + heights`. -/
noncomputable def bandUpper (values : List PyF) (ratioMode : Bool) : List PyF :=
  List.zipWith pyAdd (bandBottom values ratioMode) (bandHeights values ratioMode)

/-- A concrete histogram for counterexamples and witnesses. -/
def histA : Histo := ⟨[0, 1], [5], none, none⟩

/-- A concrete file environment: names `a` and `b` hold a histogram,
everything else is missing. -/
def envAB : String → Option FileContent := fun s =>
  if s = "a" ∨ s = "b" then some (FileContent.hist histA) else none

/-- The shared subexpression `((poisson + values) / values) - 1` of the
ratio-mode branch, per bin. -/
noncomputable def ratioX (v : PyF) : PyF :=
  pySub (pyDiv (pyAdd (pySqrt v) v) v) (PyF.fin 1)

/-! ## Helper lemmas -/

lemma getD_zipWith_add (a b : List ℚ) (i : Nat) (ha : i < a.length)
    (hb : i < b.length) :
    (List.zipWith (· + ·) a b).getD i 0 = a.getD i 0 + b.getD i 0 := by
  have hl : i < (List.zipWith (· + ·) a b).length := by
    simp only [List.length_zipWith, lt_min_iff]; exact ⟨ha, hb⟩
  rw [List.getD_eq_getElem _ _ hl, List.getD_eq_getElem _ _ ha,
    List.getD_eq_getElem _ _ hb, List.getElem_zipWith]

lemma foldl_zipWith_getD (rows : List (List ℚ)) (acc : List ℚ)
    (hlen : ∀ r ∈ rows, r.length = acc.length) (i : Nat) (hi : i < acc.length) :
    (rows.foldl (fun a w => List.zipWith (· + ·) a w) acc).getD i 0 =
      acc.getD i 0 + (rows.map (fun r => r.getD i 0)).sum := by
  induction rows generalizing acc with
  | nil => simp
  | cons r rest ih =>
    have hr : r.length = acc.length := hlen r (List.mem_cons_self r rest)
    have hz : (List.zipWith (· + ·) acc r).length = acc.length := by
      simp [List.length_zipWith, hr]
    simp only [List.foldl_cons]
    rw [ih (List.zipWith (· + ·) acc r)
      (fun r' hr' => by rw [hz]; exact hlen r' (List.mem_cons_of_mem r hr'))
      (by rw [hz]; exact hi)]
    rw [getD_zipWith_add acc r i hi (hr ▸ hi)]
    simp only [List.map_cons, List.sum_cons]
    ring

lemma dictInsert_fresh {α : Type} (d : List (String × α)) (k : String) (v : α)
    (h : k ∉ keysOf d) : dictInsert d k v = d ++ [(k, v)] := by
  have h' : ¬ ((d.any fun p => p.1 = k) = true) := by
    simp only [List.any_eq_true, decide_eq_true_eq]
    rintro ⟨p, hp, hpk⟩
    exact h (hpk ▸ List.mem_map_of_mem Prod.fst hp)
  rw [dictInsert, if_neg h']

lemma keysOf_append {α : Type} (d e : List (String × α)) :
    keysOf (d ++ e) = keysOf d ++ keysOf e := by
  simp [keysOf]

lemma length_eq_length_keysOf {α : Type} (d : List (String × α)) :
    d.length = (keysOf d).length := by
  simp [keysOf]

/-- Running the loading loop over a batch in which every file holds a
histogram: the loop completes (no abort), appends every name to
`samples_dict`, and routes each name to `histos_dict` or `data_dict` by
`DataSpec.isData`. -/
lemma loadSamples_all_good (env : String → Option FileContent) (ds : DataSpec) :
    ∀ (samples : List String) (st : Store),
    (∀ s ∈ samples, ∃ h, env s = some (FileContent.hist h)) →
    samples.Nodup →
    (∀ s ∈ samples, s ∉ keysOf st.samples_dict ∧ s ∉ keysOf st.histos_dict ∧
      s ∉ keysOf st.data_dict) →
    (loadSamples env ds samples st).2 = true ∧
    keysOf (loadSamples env ds samples st).1.samples_dict =
      keysOf st.samples_dict ++ samples ∧
    keysOf (loadSamples env ds samples st).1.histos_dict =
      keysOf st.histos_dict ++ samples.filter (fun s => ! ds.isData s) ∧
    keysOf (loadSamples env ds samples st).1.data_dict =
      keysOf st.data_dict ++ samples.filter (fun s => ds.isData s) := by
  intro samples
  induction samples with
  | nil => intro st _ _ _; simp [loadSamples]
  | cons s rest ih =>
    intro st hgood hnd hfresh
    obtain ⟨h, hs⟩ := hgood s (List.mem_cons_self s rest)
    obtain ⟨hs1, hs2, hs3⟩ := hfresh s (List.mem_cons_self s rest)
    have hsrest : s ∉ rest := (List.nodup_cons.1 hnd).1
    have hgood' : ∀ s' ∈ rest, ∃ h, env s' = some (FileContent.hist h) :=
      fun s' hs' => hgood s' (List.mem_cons_of_mem s hs')
    have hnd' : rest.Nodup := (List.nodup_cons.1 hnd).2
    by_cases hd : ds.isData s = true
    · have hstep : loadSamples env ds (s :: rest) st =
          loadSamples env ds rest
            { st with samples_dict := dictInsert st.samples_dict s h,
                      data_dict := dictInsert st.data_dict s h,
                      plot_types := dictInsert st.plot_types s ("data") } := by
        simp [loadSamples, hs, hd]
      set st2 : Store :=
        { st with samples_dict := dictInsert st.samples_dict s h,
                  data_dict := dictInsert st.data_dict s h,
                  plot_types := dictInsert st.plot_types s ("data") }
        with hst2
      have hk1 : keysOf st2.samples_dict = keysOf st.samples_dict ++ [s] := by
        simp [hst2, dictInsert_fresh st.samples_dict s h hs1, keysOf_append, keysOf]
      have hk2 : keysOf st2.histos_dict = keysOf st.histos_dict := rfl
      have hk3 : keysOf st2.data_dict = keysOf st.data_dict ++ [s] := by
        simp [hst2, dictInsert_fresh st.data_dict s h hs3, keysOf_append, keysOf]
      have hfresh2 : ∀ s' ∈ rest, s' ∉ keysOf st2.samples_dict ∧
          s' ∉ keysOf st2.histos_dict ∧ s' ∉ keysOf st2.data_dict := by
        intro s' hs'
        obtain ⟨h1, h2, h3⟩ := hfresh s' (List.mem_cons_of_mem s hs')
        have hne : s' ≠ s := fun he => hsrest (he ▸ hs')
        rw [hk1, hk2, hk3]
        simp only [List.mem_append, List.mem_singleton, not_or]
        exact ⟨⟨h1, hne⟩, h2, ⟨h3, hne⟩⟩
      obtain ⟨hflag, hsam, hhist, hdata⟩ := ih st2 hgood' hnd' hfresh2
      rw [hstep]
      refine ⟨hflag, ?_, ?_, ?_⟩
      · rw [hsam, hk1]; simp
      · rw [hhist, hk2]; simp [List.filter_cons, hd]
      · rw [hdata, hk3]; simp [List.filter_cons, hd]
    · have hstep : loadSamples env ds (s :: rest) st =
          loadSamples env ds rest
            { st with samples_dict := dictInsert st.samples_dict s h,
                      histos_dict := dictInsert st.histos_dict s h,
                      histos_list := st.histos_list ++ [h],
                      plot_types := dictInsert st.plot_types s ("histo") } := by
        simp [loadSamples, hs, hd]
      set st2 : Store :=
        { st with samples_dict := dictInsert st.samples_dict s h,
                  histos_dict := dictInsert st.histos_dict s h,
                  histos_list := st.histos_list ++ [h],
                  plot_types := dictInsert st.plot_types s ("histo") }
        with hst2
      have hk1 : keysOf st2.samples_dict = keysOf st.samples_dict ++ [s] := by
        simp [hst2, dictInsert_fresh st.samples_dict s h hs1, keysOf_append, keysOf]
      have hk2 : keysOf st2.histos_dict = keysOf st.histos_dict ++ [s] := by
        simp [hst2, dictInsert_fresh st.histos_dict s h hs2, keysOf_append, keysOf]
      have hk3 : keysOf st2.data_dict = keysOf st.data_dict := rfl
      have hfresh2 : ∀ s' ∈ rest, s' ∉ keysOf st2.samples_dict ∧
          s' ∉ keysOf st2.histos_dict ∧ s' ∉ keysOf st2.data_dict := by
        intro s' hs'
        obtain ⟨h1, h2, h3⟩ := hfresh s' (List.mem_cons_of_mem s hs')
        have hne : s' ≠ s := fun he => hsrest (he ▸ hs')
        rw [hk1, hk2, hk3]
        simp only [List.mem_append, List.mem_singleton, not_or]
        exact ⟨⟨h1, hne⟩, ⟨h2, hne⟩, h3⟩
      obtain ⟨hflag, hsam, hhist, hdata⟩ := ih st2 hgood' hnd' hfresh2
      rw [hstep]
      refine ⟨hflag, ?_, ?_, ?_⟩
      · rw [hsam, hk1]; simp
      · rw [hhist, hk2]; simp [List.filter_cons, hd]
      · rw [hdata, hk3]; simp [List.filter_cons, hd]

/-- Loading a batch that starts with an all-good prefix continues past
that prefix with the accumulated store. -/
lemma loadSamples_append_good (env : String → Option FileContent)
    (ds : DataSpec) :
    ∀ (pre : List String),
    (∀ s ∈ pre, ∃ h, env s = some (FileContent.hist h)) →
    ∀ (l : List String) (st : Store),
    loadSamples env ds (pre ++ l) st =
      loadSamples env ds l (loadSamples env ds pre st).1 := by
  intro pre
  induction pre with
  | nil => intro _ l st; rfl
  | cons s rest ih =>
    intro hgood l st
    obtain ⟨h, hs⟩ := hgood s (List.mem_cons_self s rest)
    simp only [List.cons_append, loadSamples, hs]
    exact ih (fun s' hs' => hgood s' (List.mem_cons_of_mem s hs')) l _

/-! ## Claim theorems -/

/-- Claim C1: for every numerator value list and denominator value list of
equal bin count, the computed ratio series has one entry per bin, each
entry equals numerator/denominator, except that a bin whose denominator is
exactly 0 yields ratio 0; in particular
`ratiovalues [4,0,9] [2,0,3] = [2,0,3]`. -/
theorem C1_ratio_zero_convention (nvals dvals : List ℚ)
    (hlen : nvals.length = dvals.length) :
    (ratiovalues nvals dvals).length = nvals.length ∧
    (∀ i, i < nvals.length →
      (ratiovalues nvals dvals).getD i 0 =
        if dvals.getD i 0 = 0 then 0 else nvals.getD i 0 / dvals.getD i 0) ∧
    ratiovalues [4, 0, 9] [2, 0, 3] = [2, 0, 3] := by
  refine ⟨?_, ?_, by simp [ratiovalues, List.zip_cons_cons]; norm_num⟩
  · simp [ratiovalues, hlen]
  · intro i hi
    have hi' : i < dvals.length := hlen ▸ hi
    have hz : i < (nvals.zip dvals).length := by
      simp only [List.length_zip, lt_min_iff]; exact ⟨hi, hi'⟩
    have hr : i < (ratiovalues nvals dvals).length := by
      simpa [ratiovalues] using hz
    rw [List.getD_eq_getElem _ _ hr, List.getD_eq_getElem _ _ hi,
      List.getD_eq_getElem _ _ hi']
    simp only [ratiovalues, List.getElem_map, List.getElem_zip]
    by_cases h : dvals[i] = 0 <;> simp [h]

/-- Witness for C1 at the spec's concrete input. -/
theorem C1_ratio_zero_convention_witness :
    (([4, 0, 9] : List ℚ).length = ([2, 0, 3] : List ℚ).length) ∧
    ratiovalues [4, 0, 9] [2, 0, 3] = [2, 0, 3] :=
  ⟨rfl, (C1_ratio_zero_convention [4, 0, 9] [2, 0, 3] rfl).2.2⟩

lemma store_data_ok (st : Store) (ds : DataSpec)
    (h : st.histos_dict ≠ [] ∨ st.data_dict ≠ []) :
    ∃ d, store_data st ds = Except.ok d := by
  obtain ⟨sa, sh, sl, sd, sp⟩ := st
  cases sh with
  | cons p t => exact ⟨_, rfl⟩
  | nil =>
    cases sd with
    | cons p t => exact ⟨_, rfl⟩
    | nil => simp at h

/-- Counterexample to claim C3 as stated: constructing from the N = 2
samples `["a", "b"]` with `"b"` routed to the overlay role succeeds, but
`len(samples_dict) + len(data_dict)` is 3, not 2 — `samples_dict` holds
every loaded sample, so each overlay sample is counted twice. -/
theorem C3_sum_counterexample :
    ¬ ((construct envAB ["a", "b"] (DataSpec.names ["b"])).toOption.map
        (fun p => p.1.samples_dict.length + p.1.data_dict.length) =
      some (["a", "b"] : List String).length) ∧
    (construct envAB ["a", "b"] (DataSpec.names ["b"])).toOption.map
        (fun p => p.1.samples_dict.length + p.1.data_dict.length) =
      some 3 := by
  decide

/-- Claim C3 as amended: for every store successfully constructed from N
distinctly named histogram samples, the histogram-role and overlay-role
dicts partition the loaded names — `len(histos_dict) + len(data_dict) = N`
with no name in both — while `samples_dict` alone already holds all N
names. -/
theorem C3_role_partition (env : String → Option FileContent) (ds : DataSpec)
    (samples : List String) (hne : samples ≠ []) (hnd : samples.Nodup)
    (hgood : ∀ s ∈ samples, ∃ h, env s = some (FileContent.hist h)) :
    ∃ st d, construct env samples ds = Except.ok (st, d) ∧
      st.samples_dict.length = samples.length ∧
      st.histos_dict.length + st.data_dict.length = samples.length ∧
      ∀ s, ¬ (s ∈ keysOf st.histos_dict ∧ s ∈ keysOf st.data_dict) := by
  obtain ⟨hflag, hsam, hhist, hdata⟩ :=
    loadSamples_all_good env ds samples emptyStore hgood hnd
      (by intro s _; exact ⟨List.not_mem_nil s, List.not_mem_nil s, List.not_mem_nil s⟩)
  set st : Store := (loadSamples env ds samples emptyStore).1 with hstdef
  have hkeysam : keysOf st.samples_dict = samples := by
    simpa [emptyStore, keysOf] using hsam
  have hkeyhist : keysOf st.histos_dict =
      samples.filter (fun s => ! ds.isData s) := by
    simpa [emptyStore, keysOf] using hhist
  have hkeydata : keysOf st.data_dict = samples.filter (fun s => ds.isData s) := by
    simpa [emptyStore, keysOf] using hdata
  have hci : (check_input env samples ds).1 = st := by
    rw [check_input, if_neg hne]
  have hnonempty : st.histos_dict ≠ [] ∨ st.data_dict ≠ [] := by
    obtain ⟨s0, hs0⟩ := List.exists_mem_of_ne_nil samples hne
    by_cases hd0 : ds.isData s0 = true
    · right
      intro hnil
      have : s0 ∈ keysOf st.data_dict := by
        rw [hkeydata, List.mem_filter]; exact ⟨hs0, by simp [hd0]⟩
      rw [hnil] at this; simp [keysOf] at this
    · left
      intro hnil
      have : s0 ∈ keysOf st.histos_dict := by
        rw [hkeyhist, List.mem_filter]; exact ⟨hs0, by simp [hd0]⟩
      rw [hnil] at this; simp [keysOf] at this
  obtain ⟨d, hd⟩ := store_data_ok st ds hnonempty
  refine ⟨st, d, ?_, ?_, ?_, ?_⟩
  · simp only [construct]; rw [hci, hd]; rfl
  · rw [length_eq_length_keysOf, hkeysam]
  · rw [length_eq_length_keysOf st.histos_dict, length_eq_length_keysOf st.data_dict,
      hkeyhist, hkeydata]
    rw [Nat.add_comm]
    exact (List.length_eq_length_filter_add (fun s => ds.isData s)).symm
  · intro s ⟨hin1, hin2⟩
    rw [hkeyhist, List.mem_filter] at hin1
    rw [hkeydata, List.mem_filter] at hin2
    have := hin1.2
    rw [hin2.2] at this
    simp at this

/-- Witness for C3 (amended) at the concrete two-sample store. -/
theorem C3_role_partition_witness :
    ((["a", "b"] : List String) ≠ [] ∧ (["a", "b"] : List String).Nodup) ∧
    (∃ st d, construct envAB ["a", "b"] (DataSpec.names ["b"]) =
        Except.ok (st, d) ∧
      st.samples_dict.length = (["a", "b"] : List String).length ∧
      st.histos_dict.length + st.data_dict.length =
        (["a", "b"] : List String).length ∧
      ∀ s, ¬ (s ∈ keysOf st.histos_dict ∧ s ∈ keysOf st.data_dict)) :=
  ⟨⟨by decide, by decide⟩,
    C3_role_partition envAB (DataSpec.names ["b"]) ["a", "b"] (by decide)
      (by decide)
      (fun s hs => ⟨histA, by
        rcases List.mem_pair.1 hs with rfl | rfl <;> rfl⟩)⟩

/-- Claim C8: during batch loading, as soon as one name's file is missing
or holds a non-histogram object, the loop reports the error and breaks: no
later sample is loaded, and the store stays exactly as the all-good prefix
left it. -/
theorem C8_abort_on_first_bad (env : String → Option FileContent)
    (ds : DataSpec) (pre : List String) (bad : String) (post : List String)
    (hgood : ∀ s ∈ pre, ∃ h, env s = some (FileContent.hist h))
    (hbad : env bad = none ∨ env bad = some FileContent.other) :
    loadSamples env ds (pre ++ bad :: post) emptyStore =
      ((loadSamples env ds pre emptyStore).1, false) := by
  rw [loadSamples_append_good env ds pre hgood (bad :: post) emptyStore]
  rcases hbad with hb | hb <;> simp [loadSamples, hb]

/-- Witness for C8: loading `["a", "zz", "b"]` where `zz` is missing stops
at `zz` and keeps only `a`. -/
theorem C8_abort_on_first_bad_witness :
    loadSamples envAB (DataSpec.names []) (["a"] ++ "zz" :: ["b"]) emptyStore =
      ((loadSamples envAB (DataSpec.names []) ["a"] emptyStore).1, false) :=
  C8_abort_on_first_bad envAB (DataSpec.names []) ["a"] "zz" ["b"]
    (fun s hs => ⟨histA, by rw [List.mem_singleton.1 hs]; rfl⟩)
    (Or.inl rfl)

/-- Claim C4 (code bug): with an empty sample name list, `check_input` only
logs and leaves every dict empty, and then `store_data` — called
unconditionally by `__init__` — evaluates `next(iter(self.data_dict))` on
an empty dict and raises an uncaught `StopIteration`: construction does not
complete normally with an empty store. -/
theorem C4_empty_sample_list_crashes :
    construct (fun _ => none) [] (DataSpec.names []) =
      Except.error PyErr.stopIteration ∧
    ∀ (env : String → Option FileContent) (ds : DataSpec),
      construct env [] ds = Except.error PyErr.stopIteration :=
  ⟨rfl, fun _ _ => rfl⟩

/-- Claim C6: `get_stackvalues` of a single histogram returns its values
unchanged; for a pair of equal bin count it is the elementwise sum; and for
any non-empty list of histograms of equal bin count it is the elementwise
sum across all of them. -/
theorem C6_stacked_total :
    (∀ h : Histo, get_stackvalues [h] = h.vals) ∧
    (∀ a b : Histo, a.vals.length = b.vals.length →
      ∀ i, i < a.vals.length →
        (get_stackvalues [a, b]).getD i 0 = a.vals.getD i 0 + b.vals.getD i 0) ∧
    (∀ (l : List Histo) (n : Nat), l ≠ [] → (∀ h ∈ l, h.vals.length = n) →
      ∀ i, i < n →
        (get_stackvalues l).getD i 0 = (l.map (fun h => h.vals.getD i 0)).sum) := by
  refine ⟨fun h => rfl, ?_, ?_⟩
  · intro a b hab i hi
    show (List.zipWith (· + ·) a.vals b.vals).getD i 0 = _
    exact getD_zipWith_add a.vals b.vals i hi (hab ▸ hi)
  · intro l n hne hlen i hi
    match l with
    | [] => exact absurd rfl hne
    | [h] =>
      have := hlen h (List.mem_singleton_self h)
      simp [get_stackvalues]
    | h1 :: h2 :: t =>
      show (np_sum_axis0 (h1.vals :: (h2 :: t).map (fun h => h.vals))).getD i 0 = _
      have h1n : h1.vals.length = n := hlen h1 (by simp)
      rw [show np_sum_axis0 (h1.vals :: (h2 :: t).map (fun h => h.vals)) =
          ((h2 :: t).map (fun h => h.vals)).foldl
            (fun a w => List.zipWith (· + ·) a w) h1.vals from rfl]
      rw [foldl_zipWith_getD _ h1.vals
        (fun r hr => by
          obtain ⟨h, hh, rfl⟩ := List.mem_map.1 hr
          rw [h1n]; exact hlen h (List.mem_cons_of_mem h1 hh))
        i (h1n ▸ hi)]
      simp [List.map_map, Function.comp_def]

/-- Witness for C6 at concrete histograms: `[1,2]` stacked with `[3,4]`
sums elementwise (`1 + 3 = 4` at bin 0). -/
theorem C6_stacked_total_witness :
    ((⟨[], [1, 2], none, none⟩ : Histo).vals.length =
      (⟨[], [3, 4], none, none⟩ : Histo).vals.length) ∧
    (get_stackvalues [⟨[], [1, 2], none, none⟩, ⟨[], [3, 4], none, none⟩]).getD 0 0 =
      (4 : ℚ) := by
  refine ⟨rfl, ?_⟩
  have h := C6_stacked_total.2.1 ⟨[], [1, 2], none, none⟩ ⟨[], [3, 4], none, none⟩
    rfl 0 (by norm_num)
  norm_num at h
  simpa using h

/-- Counterexample to claim C9 as stated: the claim covers "every other
string", but on the empty string the parser does not report an error and
fall through — `string[0]` raises `IndexError` before any branch runs. -/
theorem C9_empty_string_counterexample :
    gridstring_converter [] = GridOutcome.crashed ∧
    GridOutcome.crashed ≠ GridOutcome.reported := by
  decide

lemma converter_cons_first (c : Char) (rest : List Char)
    (h1 : (c = 'x' ∨ c = 'y') ∧ rest ∈ linestyles) :
    gridstring_converter (c :: rest) = GridOutcome.assigned [c] rest := by
  simp only [gridstring_converter]
  rw [if_pos h1]

lemma converter_cons_second (c : Char) (rest : List Char)
    (h1 : ¬ ((c = 'x' ∨ c = 'y') ∧ rest ∈ linestyles))
    (h2 : (c :: rest).take 4 = bothChars ∧ (c :: rest).drop 4 ∈ linestyles) :
    gridstring_converter (c :: rest) =
      GridOutcome.assigned ((c :: rest).take 4) ((c :: rest).drop 4) := by
  simp only [gridstring_converter]
  rw [if_neg h1, if_pos h2]

lemma converter_cons_reported (c : Char) (rest : List Char)
    (h1 : ¬ ((c = 'x' ∨ c = 'y') ∧ rest ∈ linestyles))
    (h2 : ¬ ((c :: rest).take 4 = bothChars ∧ (c :: rest).drop 4 ∈ linestyles)) :
    gridstring_converter (c :: rest) = GridOutcome.reported := by
  simp only [gridstring_converter]
  rw [if_neg h1, if_neg h2]

lemma converter_both (l : List Char) (hl : l ∈ linestyles) :
    gridstring_converter (bothChars ++ l) =
      GridOutcome.assigned bothChars l := by
  have hneg : ¬ (('b' = 'x' ∨ 'b' = 'y') ∧
      ('o' :: 't' :: 'h' :: l : List Char) ∈ linestyles) := by
    simp
  show gridstring_converter ('b' :: ('o' :: 't' :: 'h' :: l)) = _
  simp only [gridstring_converter]
  rw [if_neg hneg, if_pos ⟨rfl, hl⟩]
  rfl

/-- Claim C9 as amended: the parser assigns exactly on the strings formed
by an axis in `{x, y, both}` immediately followed by a linestyle in
`{-, --, -., :}`, assigning those two parts; on every other non-empty
string it reports an error and assigns neither part (the empty string
instead raises an index error). -/
theorem C9_gridstring_grammar (s : List Char) :
    (∀ a l, gridstring_converter s = GridOutcome.assigned a l →
      a ∈ gridAxes ∧ l ∈ linestyles ∧ s = a ++ l) ∧
    (∀ a l, a ∈ gridAxes → l ∈ linestyles → s = a ++ l →
      gridstring_converter s = GridOutcome.assigned a l) ∧
    (s ≠ [] → ¬ gridSpecValid s →
      gridstring_converter s = GridOutcome.reported) := by
  refine ⟨?_, ?_, ?_⟩
  · intro a l h
    match s with
    | [] => simp [gridstring_converter] at h
    | c :: rest =>
      by_cases h1 : (c = 'x' ∨ c = 'y') ∧ rest ∈ linestyles
      · rw [converter_cons_first c rest h1] at h
        have ha : a = [c] ∧ l = rest := by
          injection h with hx hy; exact ⟨hx.symm, hy.symm⟩
        obtain ⟨rfl, rfl⟩ := ha
        refine ⟨?_, h1.2, rfl⟩
        rcases h1.1 with rfl | rfl <;> simp [gridAxes]
      · by_cases h2 : (c :: rest).take 4 = bothChars ∧
            (c :: rest).drop 4 ∈ linestyles
        · rw [converter_cons_second c rest h1 h2] at h
          have ha : a = (c :: rest).take 4 ∧ l = (c :: rest).drop 4 := by
            injection h with hx hy; exact ⟨hx.symm, hy.symm⟩
          obtain ⟨rfl, rfl⟩ := ha
          refine ⟨?_, h2.2, (List.take_append_drop 4 (c :: rest)).symm⟩
          rw [h2.1]; simp [gridAxes]
        · rw [converter_cons_reported c rest h1 h2] at h
          exact absurd h (by simp)
  · intro a l ha hl he
    subst he
    have haxes : a = ['x'] ∨ a = ['y'] ∨ a = bothChars := by
      simpa [gridAxes] using ha
    rcases haxes with rfl | rfl | rfl
    · exact converter_cons_first 'x' l ⟨Or.inl rfl, hl⟩
    · exact converter_cons_first 'y' l ⟨Or.inr rfl, hl⟩
    · exact converter_both l hl
  · intro hne hval
    match s, hne with
    | c :: rest, _ =>
      by_cases h1 : (c = 'x' ∨ c = 'y') ∧ rest ∈ linestyles
      · exfalso
        apply hval
        rcases h1.1 with rfl | rfl
        · exact ⟨['x'], by simp [gridAxes], rest, h1.2, rfl⟩
        · exact ⟨['y'], by simp [gridAxes], rest, h1.2, rfl⟩
      · by_cases h2 : (c :: rest).take 4 = bothChars ∧
            (c :: rest).drop 4 ∈ linestyles
        · exfalso
          apply hval
          refine ⟨bothChars, by simp [gridAxes], (c :: rest).drop 4, h2.2, ?_⟩
          conv_lhs => rw [← List.take_append_drop 4 (c :: rest)]
          rw [h2.1]
        · exact converter_cons_reported c rest h1 h2

/-- Witness for C9 (amended): `x--` is accepted with axis `x` and line
`--`; `z:` is rejected with a reported error. -/
theorem C9_gridstring_grammar_witness :
    ((['x'] ∈ gridAxes ∧ ['-', '-'] ∈ linestyles) ∧
      gridstring_converter (['x'] ++ ['-', '-']) =
        GridOutcome.assigned ['x'] ['-', '-']) ∧
    gridstring_converter ['z', ':'] = GridOutcome.reported :=
  ⟨⟨⟨by decide, by decide⟩,
    (C9_gridstring_grammar (['x'] ++ ['-', '-'])).2.1 ['x'] ['-', '-']
      (by decide) (by decide) rfl⟩,
    (C9_gridstring_grammar ['z', ':']).2.2 (by decide) (by decide)⟩

/-- Claim C10: `plot_options` with a non-empty grid string the converter
rejects still sets `need_grid = True` while `gridaxis`/`gridline` stay
unassigned, so the grid-drawing step of `hist_plot` and of `bot_plot`
reads a missing attribute and raises `AttributeError`. -/
theorem C10_rejected_grid_string_attribute_error (s : List Char)
    (hne : s ≠ []) (hrej : gridstring_converter s = GridOutcome.reported) :
    (plot_options_grid initGridState s).need_grid = true ∧
    (plot_options_grid initGridState s).gridaxis = none ∧
    (plot_options_grid initGridState s).gridline = none ∧
    hist_plot_grid (plot_options_grid initGridState s) =
      Except.error PyErr.attributeError ∧
    bot_plot_grid (plot_options_grid initGridState s) =
      Except.error PyErr.attributeError := by
  have hac : applyConverter initGridState s = initGridState := by
    simp only [applyConverter, hrej]
  have hpo : plot_options_grid initGridState s =
      { initGridState with need_grid := true } := by
    rw [plot_options_grid, if_neg hne, hac]
  rw [hpo]
  exact ⟨rfl, rfl, rfl, rfl, rfl⟩

/-- Witness for C10 at the rejected grid string `z:`. -/
theorem C10_rejected_grid_string_witness :
    ((['z', ':'] : List Char) ≠ [] ∧
      gridstring_converter ['z', ':'] = GridOutcome.reported) ∧
    hist_plot_grid (plot_options_grid initGridState ['z', ':']) =
      Except.error PyErr.attributeError :=
  ⟨⟨by decide, by decide⟩,
    (C10_rejected_grid_string_attribute_error ['z', ':'] (by decide)
      (by decide)).2.2.2.1⟩

lemma needsScan_snd (l : List ℚ) (b : Bool) :
    (needsScan l b).2 = l.any (fun x => digit2 x != 0) := by
  induction l generalizing b with
  | nil => simp [needsScan]
  | cons x rest ih =>
    by_cases h : (digit2 x != 0) = true
    · simp [needsScan, h]
    · simp only [needsScan, h]
      rw [if_neg (by simp [h])]
      simp [ih, h]

lemma needsScan_fst (l : List ℚ) (b : Bool) (h : ∀ x ∈ l, digit2 x = 0) :
    (needsScan l b).1 = (b || l.any (fun x => digit1 x != 0)) := by
  induction l generalizing b with
  | nil => simp [needsScan]
  | cons x rest ih =>
    have hx : digit2 x = 0 := h x (List.mem_cons_self x rest)
    simp only [needsScan]
    rw [if_neg (by simp [hx])]
    rw [ih _ (fun y hy => h y (List.mem_cons_of_mem x hy))]
    simp [Bool.or_assoc]

lemma rhe_natCast (k : ℕ) : rhe (k : ℚ) = (k : ℤ) := by
  unfold rhe
  rw [Int.floor_natCast]
  rw [if_pos (by push_cast; norm_num)]

lemma fracDigits2_cast (q : ℚ) (k : ℕ) (hq : 0 ≤ q)
    (hk : q * 100 = (k : ℚ)) : fracDigits2 q = k % 100 := by
  unfold fracDigits2
  rw [abs_of_nonneg hq, hk, rhe_natCast, Int.toNat_natCast]

lemma formatFixed_cast (p : Nat) (q : ℚ) (k : ℕ) (hq : 0 ≤ q)
    (hk : q * (10 : ℚ) ^ p = (k : ℚ)) :
    formatFixed p q =
      (if p = 0 then toString k
       else toString (k / 10 ^ p) ++ "." ++ natPad p (k % 10 ^ p)) := by
  unfold formatFixed
  rw [abs_of_nonneg hq, hk, rhe_natCast, Int.toNat_natCast, if_neg (not_lt.2 hq)]
  simp only [String.empty_append]

lemma ylabeler_eq_specLabels (ticks : List ℚ) (edges : Bool) :
    ylabeler ticks edges = specLabels ticks edges := by
  have hlab :
      (if (needsScan ((ticks.drop 1).dropLast) false).2 then
        ticks.map (formatFixed 2)
      else if (needsScan ((ticks.drop 1).dropLast) false).1 then
        ticks.map (formatFixed 1)
      else ticks.map (formatFixed 0)) =
      ticks.map (formatFixed (specPrecision ticks)) := by
    simp only [specPrecision]
    by_cases hd2 :
        ((ticks.drop 1).dropLast).any (fun x => digit2 x != 0) = true
    · rw [needsScan_snd, hd2]
      rfl
    · have hd2' : ((ticks.drop 1).dropLast).any (fun x => digit2 x != 0) =
          false := by
        exact Bool.not_eq_true _ ▸ hd2
      have hall : ∀ x ∈ (ticks.drop 1).dropLast, digit2 x = 0 := by
        intro x hx
        have := List.any_eq_false.1 hd2' x hx
        simpa using this
      rw [needsScan_snd, hd2', needsScan_fst _ false hall]
      by_cases hd1 :
          ((ticks.drop 1).dropLast).any (fun x => digit1 x != 0) = true
      · rw [hd1]
        rfl
      · have hd1' : ((ticks.drop 1).dropLast).any (fun x => digit1 x != 0) =
            false := Bool.not_eq_true _ ▸ hd1
        rw [hd1']
        rfl
  simp only [ylabeler, specLabels]
  rw [hlab]

/-- Claim C7: the label list of `custom_yaxis` agrees with the spec's
declarative rule — two decimals for every label when some interior tick has
a non-zero second decimal digit (in its 2-decimal rendering), else one
decimal when some interior tick has a non-zero first decimal digit, else
integers, with the first and last labels blanked unless edge labels are
requested; on the spec's example tick sets `[1, 1.05, 2]`, `[1, 1.5, 2]`
and `[1, 2, 3]` the labels are the 2-decimal, 1-decimal and integer
renderings respectively. -/
theorem C7_tick_label_precision :
    (∀ (ylo yhi step : ℚ) (edges : Bool),
      custom_yaxis ylo yhi step edges =
        specLabels (ybotrange ylo yhi step) edges) ∧
    ylabeler [1, 21/20, 2] true = ["1.00", "1.05", "2.00"] ∧
    ylabeler [1, 3/2, 2] true = ["1.0", "1.5", "2.0"] ∧
    ylabeler [1, 2, 3] true = ["1", "2", "3"] ∧
    ylabeler [1, 2, 3] false = ["", "2", ""] := by
  have f2a : formatFixed 2 (1 : ℚ) = "1.00" := by
    rw [formatFixed_cast 2 1 100 (by norm_num) (by norm_num)]; decide
  have f2b : formatFixed 2 (21/20 : ℚ) = "1.05" := by
    rw [formatFixed_cast 2 (21/20) 105 (by norm_num) (by norm_num)]; decide
  have f2c : formatFixed 2 (2 : ℚ) = "2.00" := by
    rw [formatFixed_cast 2 2 200 (by norm_num) (by norm_num)]; decide
  have f1a : formatFixed 1 (1 : ℚ) = "1.0" := by
    rw [formatFixed_cast 1 1 10 (by norm_num) (by norm_num)]; decide
  have f1b : formatFixed 1 (3/2 : ℚ) = "1.5" := by
    rw [formatFixed_cast 1 (3/2) 15 (by norm_num) (by norm_num)]; decide
  have f1c : formatFixed 1 (2 : ℚ) = "2.0" := by
    rw [formatFixed_cast 1 2 20 (by norm_num) (by norm_num)]; decide
  have f0a : formatFixed 0 (1 : ℚ) = "1" := by
    rw [formatFixed_cast 0 1 1 (by norm_num) (by norm_num)]; decide
  have f0b : formatFixed 0 (2 : ℚ) = "2" := by
    rw [formatFixed_cast 0 2 2 (by norm_num) (by norm_num)]; decide
  have f0c : formatFixed 0 (3 : ℚ) = "3" := by
    rw [formatFixed_cast 0 3 3 (by norm_num) (by norm_num)]; decide
  have hd105 : digit2 (21/20 : ℚ) = 5 := by
    rw [digit2, fracDigits2_cast (21/20) 105 (by norm_num) (by push_cast; norm_num)]
  have hd15a : digit2 (3/2 : ℚ) = 0 := by
    rw [digit2, fracDigits2_cast (3/2) 150 (by norm_num) (by push_cast; norm_num)]
  have hd15b : digit1 (3/2 : ℚ) = 5 := by
    rw [digit1, fracDigits2_cast (3/2) 150 (by norm_num) (by push_cast; norm_num)]
  have hd2a : digit2 (2 : ℚ) = 0 := by
    rw [digit2, fracDigits2_cast 2 200 (by norm_num) (by push_cast; norm_num)]
  have hd2b : digit1 (2 : ℚ) = 0 := by
    rw [digit1, fracDigits2_cast 2 200 (by norm_num) (by push_cast; norm_num)]
  have hscanA : needsScan [(21/20 : ℚ)] false = (false, true) := by
    simp only [needsScan, hd105]
    rfl
  have hscanB : needsScan [(3/2 : ℚ)] false = (true, false) := by
    simp only [needsScan, hd15a, hd15b]
    rfl
  have hscanC : needsScan [(2 : ℚ)] false = (false, false) := by
    simp only [needsScan, hd2a, hd2b]
    rfl
  refine ⟨?_, ?_, ?_, ?_, ?_⟩
  · intro ylo yhi step edges
    exact ylabeler_eq_specLabels (ybotrange ylo yhi step) edges
  · simp only [ylabeler,
      show (([1, 21/20, 2] : List ℚ).drop 1).dropLast = [21/20] from rfl,
      hscanA, List.map_cons, List.map_nil]
    rw [f2a, f2b, f2c]
    rfl
  · simp only [ylabeler,
      show (([1, 3/2, 2] : List ℚ).drop 1).dropLast = [3/2] from rfl,
      hscanB, List.map_cons, List.map_nil]
    rw [f1a, f1b, f1c]
    rfl
  · simp only [ylabeler,
      show (([1, 2, 3] : List ℚ).drop 1).dropLast = [2] from rfl,
      hscanC, List.map_cons, List.map_nil]
    rw [f0a, f0b, f0c]
    rfl
  · simp only [ylabeler,
      show (([1, 2, 3] : List ℚ).drop 1).dropLast = [2] from rfl,
      hscanC, List.map_cons, List.map_nil]
    rw [f0a, f0b, f0c]
    decide

lemma zipWith_map_self {α β : Type} (f : α → α → β) (g : α → α) (l : List α) :
    List.zipWith f (l.map g) l = l.map (fun v => f (g v) v) := by
  induction l with
  | nil => rfl
  | cons x t ih => simp [ih]

lemma zipWith_map_map {α β : Type} (f : α → α → β) (g h : α → α) (l : List α) :
    List.zipWith f (l.map g) (l.map h) = l.map (fun v => f (g v) (h v)) := by
  induction l with
  | nil => rfl
  | cons x t ih => simp [ih]

lemma zipWith_map_self_right {α β : Type} (f : α → α → β) (g : α → α)
    (l : List α) : List.zipWith f l (l.map g) = l.map (fun v => f v (g v)) := by
  induction l with
  | nil => rfl
  | cons x t ih => simp [ih]

lemma pyAdd_fin (a b : ℝ) : pyAdd (PyF.fin a) (PyF.fin b) = PyF.fin (a + b) := rfl

lemma pySub_fin (a b : ℝ) : pySub (PyF.fin a) (PyF.fin b) = PyF.fin (a - b) := rfl

lemma pyMul_fin (a b : ℝ) : pyMul (PyF.fin a) (PyF.fin b) = PyF.fin (a * b) := rfl

lemma pyDiv_fin (a b : ℝ) (hb : b ≠ 0) :
    pyDiv (PyF.fin a) (PyF.fin b) = PyF.fin (a / b) := by
  simp [pyDiv, hb]

lemma pySqrt_fin_nonneg (v : ℝ) (hv : 0 ≤ v) :
    pySqrt (PyF.fin v) = PyF.fin (Real.sqrt v) := by
  simp [pySqrt, not_lt.2 hv]

lemma pyMul_two_nan : pyMul (PyF.fin 2) PyF.nan = PyF.nan := rfl

lemma pySub_one_nan : pySub (PyF.fin 1) PyF.nan = PyF.nan := rfl

lemma pyAdd_nan_nan : pyAdd PyF.nan PyF.nan = PyF.nan := rfl

lemma ratioX_fin_pos (v : ℝ) (hv : 0 < v) :
    ratioX (PyF.fin v) = PyF.fin ((Real.sqrt v + v) / v - 1) := by
  rw [ratioX, pySqrt_fin_nonneg v hv.le, pyAdd_fin, pyDiv_fin _ _ hv.ne',
    pySub_fin]

lemma ratioX_fin_zero : ratioX (PyF.fin 0) = PyF.nan := by
  rw [ratioX, pySqrt_fin_nonneg 0 le_rfl, Real.sqrt_zero, pyAdd_fin]
  rw [show ((0 : ℝ) + 0) = 0 by norm_num]
  rw [show pyDiv (PyF.fin 0) (PyF.fin 0) = PyF.nan from by simp [pyDiv]]
  rfl

lemma bandHeights_true_eq (vs : List PyF) :
    bandHeights vs true = vs.map (fun v => pyMul (PyF.fin 2) (ratioX v)) := by
  simp only [bandHeights, if_true]
  rw [zipWith_map_self pyAdd pySqrt vs,
    zipWith_map_self pyDiv (fun v => pyAdd (pySqrt v) v) vs]
  simp [List.map_map, Function.comp_def, ratioX]

lemma bandBottom_true_eq (vs : List PyF) :
    bandBottom vs true = vs.map (fun v => pySub (PyF.fin 1) (ratioX v)) := by
  simp only [bandBottom, if_true]
  rw [zipWith_map_self pyAdd pySqrt vs,
    zipWith_map_self pyDiv (fun v => pyAdd (pySqrt v) v) vs]
  simp [List.map_map, Function.comp_def, ratioX]

lemma bandHeights_false_eq (vs : List PyF) :
    bandHeights vs false = vs.map (fun v => pyMul (PyF.fin 2) (pySqrt v)) := by
  simp only [bandHeights, Bool.false_eq_true, if_false]
  simp [List.map_map, Function.comp_def]

lemma bandBottom_false_eq (vs : List PyF) :
    bandBottom vs false = vs.map (fun v => pySub v (pySqrt v)) := by
  simp only [bandBottom, Bool.false_eq_true, if_false]
  exact zipWith_map_self_right pySub pySqrt vs

lemma bandUpper_true_eq (vs : List PyF) :
    bandUpper vs true = vs.map
      (fun v => pyAdd (pySub (PyF.fin 1) (ratioX v))
        (pyMul (PyF.fin 2) (ratioX v))) := by
  rw [bandUpper, bandBottom_true_eq, bandHeights_true_eq]
  exact zipWith_map_map pyAdd _ _ vs

lemma bandUpper_false_eq (vs : List PyF) :
    bandUpper vs false = vs.map
      (fun v => pyAdd (pySub v (pySqrt v)) (pyMul (PyF.fin 2) (pySqrt v))) := by
  rw [bandUpper, bandBottom_false_eq, bandHeights_false_eq]
  exact zipWith_map_map pyAdd _ _ vs

/-- Claim C5: for value sequences with every bin positive, the drawn error
band is `values ∓ sqrt(values)` when not in ratio mode, and
`1 ∓ ((sqrt(values)+values)/values - 1)` in ratio mode, elementwise. -/
theorem C5_poisson_band (vs : List ℝ) (hpos : ∀ v ∈ vs, 0 < v) :
    bandLower (vs.map PyF.fin) false =
      vs.map (fun v => PyF.fin (v - Real.sqrt v)) ∧
    bandUpper (vs.map PyF.fin) false =
      vs.map (fun v => PyF.fin (v + Real.sqrt v)) ∧
    bandLower (vs.map PyF.fin) true =
      vs.map (fun v => PyF.fin (1 - ((Real.sqrt v + v) / v - 1))) ∧
    bandUpper (vs.map PyF.fin) true =
      vs.map (fun v => PyF.fin (1 + ((Real.sqrt v + v) / v - 1))) := by
  refine ⟨?_, ?_, ?_, ?_⟩
  · rw [bandLower, bandBottom_false_eq, List.map_map]
    apply List.map_congr_left
    intro v hv
    have h := hpos v hv
    simp only [Function.comp_apply]
    rw [pySqrt_fin_nonneg v h.le, pySub_fin]
  · rw [bandUpper_false_eq, List.map_map]
    apply List.map_congr_left
    intro v hv
    have h := hpos v hv
    simp only [Function.comp_apply]
    rw [pySqrt_fin_nonneg v h.le, pySub_fin, pyMul_fin, pyAdd_fin]
    exact congrArg PyF.fin (by ring)
  · rw [bandLower, bandBottom_true_eq, List.map_map]
    apply List.map_congr_left
    intro v hv
    have h := hpos v hv
    simp only [Function.comp_apply]
    rw [ratioX_fin_pos v h, pySub_fin]
  · rw [bandUpper_true_eq, List.map_map]
    apply List.map_congr_left
    intro v hv
    have h := hpos v hv
    simp only [Function.comp_apply]
    rw [ratioX_fin_pos v h, pySub_fin, pyMul_fin, pyAdd_fin]
    exact congrArg PyF.fin (by ring)

/-- Witness for C5 at the spec's example: `poisson_band([4]) = ([2],[6])`. -/
theorem C5_poisson_band_witness :
    bandLower [PyF.fin 4] false = [PyF.fin 2] ∧
    bandUpper [PyF.fin 4] false = [PyF.fin 6] := by
  have h := C5_poisson_band [4] (by norm_num)
  have h4 : Real.sqrt 4 = 2 := by
    rw [show (4 : ℝ) = 2 ^ 2 by norm_num]
    exact Real.sqrt_sq (by norm_num)
  constructor
  · have h1 := h.1
    simp only [List.map_cons, List.map_nil] at h1
    rw [h1]
    norm_num [h4]
  · have h2 := h.2.1
    simp only [List.map_cons, List.map_nil] at h2
    rw [h2]
    norm_num [h4]

/-- Counterexample to claim C2 as stated: in ratio mode a value bin equal
to 0 does not make the error-band computation fail with a reported
division-by-zero domain error — numpy elementwise arithmetic raises
nothing (it prints a warning at most), the computation is total, and that
bin's band silently becomes NaN (`0/0`). -/
theorem C2_no_explicit_failure :
    bandHeights [PyF.fin 0] true = [PyF.nan] ∧
    bandBottom [PyF.fin 0] true = [PyF.nan] ∧
    bandLower [PyF.fin 0] true = [PyF.nan] ∧
    bandUpper [PyF.fin 0] true = [PyF.nan] := by
  refine ⟨?_, ?_, ?_, ?_⟩ <;>
    simp [bandHeights_true_eq, bandBottom_true_eq, bandLower, bandUpper_true_eq,
      ratioX_fin_zero, pyMul_two_nan, pySub_one_nan, pyAdd_nan_nan]

/-- Claim C2 as amended: for every value sequence and every bin whose value
is exactly 0, the ratio-mode error-band computation yields NaN at that bin
(heights, bottom, and both band edges), with no explicit failure. -/
theorem C2_zero_bin_silent_nan (vs : List PyF) (i : Nat) (hi : i < vs.length)
    (h0 : vs.get ⟨i, hi⟩ = PyF.fin 0) :
    (bandHeights vs true)[i]? = some PyF.nan ∧
    (bandBottom vs true)[i]? = some PyF.nan ∧
    (bandLower vs true)[i]? = some PyF.nan ∧
    (bandUpper vs true)[i]? = some PyF.nan := by
  have hget : vs[i]? = some (PyF.fin 0) := by
    rw [List.getElem?_eq_getElem hi]
    exact congrArg some h0
  refine ⟨?_, ?_, ?_, ?_⟩
  · rw [bandHeights_true_eq]
    simp [hget, ratioX_fin_zero, pyMul_two_nan]
  · rw [bandBottom_true_eq]
    simp [hget, ratioX_fin_zero, pySub_one_nan]
  · rw [bandLower, bandBottom_true_eq]
    simp [hget, ratioX_fin_zero, pySub_one_nan]
  · rw [bandUpper_true_eq]
    simp [hget, ratioX_fin_zero, pySub_one_nan, pyMul_two_nan, pyAdd_nan_nan]

/-- Witness for C2 (amended) at the one-bin value sequence `[0]`. -/
theorem C2_zero_bin_silent_nan_witness :
    (bandHeights [PyF.fin 0] true)[0]? = some PyF.nan ∧
    (bandUpper [PyF.fin 0] true)[0]? = some PyF.nan :=
  ⟨(C2_zero_bin_silent_nan [PyF.fin 0] 0 (by norm_num) rfl).1,
   (C2_zero_bin_silent_nan [PyF.fin 0] 0 (by norm_num) rfl).2.2.2⟩

end Pythium
